import Mathlib

/-!
Two-layer Diffie-Hellman: a shallow embedding of `2layerDiffieHellman.h`.

The C++ class `Red::TwoLayerDiffieHellman<INT_SIZE>` is embedded as a record of
its data members together with one Lean function per member function.

Modelling conventions.

* `INT_SIZE` is instantiated with a non-negative arbitrary-precision integer,
  so `INT_SIZE` values and `boost::multiprecision::cpp_int` values are `Nat`
  and the decimal round trips through `std::stringstream` between the two are
  the identity.
* The members `m_P`, `m_a1`, `m_a2` are pointers in the source.  The embedding
  stores the pointees; it assumes that the three pointers are non-null, point
  to three distinct objects, and that the caller does not write to them while
  the session is in use.
* `m_base` is not initialised by the constructor.  It is `none` until
  `Part1_GetSymmetricBaseNum` assigns it; reading it while it is `none` is the
  outcome `Fault.indeterminateBase`.
* A member function returns its result together with the session it leaves
  behind, so that a C++ exception (an `Except.error`) still shows the writes
  that happened before it was thrown.
* `rand()` is not modelled: the function that calls it takes the value that
  `(unsigned int) rand()` produced as the argument `rnd`.
-/

namespace Red

/-- Outcomes of a member function other than a returned value. -/
inductive Fault where
  /-- The `%` of `cpp_int` was given a zero divisor (`std::overflow_error`). -/
  | divisionByZero
  /-- The `throw` at the end of `Part1_GetSymmetricBaseNum`. -/
  | roundOneResidue
  /-- The data member `m_base` was read before anything was assigned to it. -/
  | indeterminateBase
  deriving DecidableEq, Repr

deriving instance DecidableEq for Except

/-- Modelled from the spec: `Red::uint_t` is declared in `RedTypes.h`, which is
not part of the sources at hand; the specification calls it a fixed-width
unsigned integer.  Its width in bits is the parameter `w`.  The function is the
extraction `ss << *b; ss >> b_int;` of a non-negative decimal numeral into a
`w`-bit unsigned integer: a value that fits is read as it is, and one that does
not fit is stored as the largest representable value (the stream's fail bit,
which the source never inspects, is set). -/
def toUint (w : Nat) (b : Nat) : Nat :=
  if b < 2 ^ w then b else 2 ^ w - 1

/-- The remainder `ab % p_c` of two `cpp_int` values, which throws when the
divisor is zero. -/
def cppMod (ab p_c : Nat) : Except Fault Nat :=
  if p_c = 0 then Except.error Fault.divisionByZero else Except.ok (ab % p_c)

/-- The data members of `TwoLayerDiffieHellman` that are not constants. -/
structure TwoLayerDiffieHellman where
  /-- Base for part 2 (`unsigned short int`), `none` while never assigned. -/
  m_base : Option Nat
  /-- Prime number for part 2. -/
  m_P : Nat
  /-- Secret number for part 1. -/
  m_a1 : Nat
  /-- Secret number for part 2. -/
  m_a2 : Nat
  /-- Mode of secret key usage. -/
  m_mode : String
  deriving DecidableEq, Repr

namespace TwoLayerDiffieHellman

/-- Base for part 1. -/
def m_G : Nat := 2

/-- The modulus for part 1. -/
def m_Pp1 : Nat := 2

/-- Range of the 36m kit. -/
def m_range_36m : Nat := 6000

/-- Range of the 64m kit. -/
def m_range_64m : Nat := 8000

/-- Range of the 121m kit. -/
def m_range_121m : Nat := 11000

/-- Range of the 256m kit. -/
def m_range_256m : Nat := 16000

/-- Range of the 400m kit. -/
def m_range_400m : Nat := 20000

/-- The member function `power`: `a` itself when `b == 1`, otherwise the power
of `a` by the exponent converted to `Red::uint_t`, reduced modulo `P`. -/
def power (w : Nat) (a b P : Nat) : Except Fault Nat :=
  if b = 1 then
    Except.ok a
  else
    let a_c := a
    let b_int := toUint w b
    let ab := a_c ^ b_int
    let p_c := P
    cppMod ab p_c

/-- The member function `powerUSI`: the same body as `power`, with a base of
type `unsigned short int`. -/
def powerUSI (w : Nat) (a : Nat) (b P : Nat) : Except Fault Nat :=
  if b = 1 then
    Except.ok a
  else
    let a_c := a
    let b_int := toUint w b
    let ab := a_c ^ b_int
    let p_c := P
    cppMod ab p_c

/-- The exponent that `power_2_pub` stores in `*m_a2`: the draw reduced modulo
the range `b`, plus two when `b - *m_a2 >= 2`.  The subtraction is the signed
one of the arbitrary-precision type. -/
def drawExponent (b rnd : Nat) : Nat :=
  let a2 := rnd % b
  if ((b : Int) - (a2 : Int)) ≥ 2 then a2 + 2 else a2

/-- The member function `power_2_pub`, with base `a` (the value of `m_base`),
range `b` and `rnd` the value of `(unsigned int) rand()`.  It first overwrites
`*m_a2`, then raises `a` to it and reduces modulo `P`; there is no `b == 1`
branch here. -/
def power_2_pub (w : Nat) (s : TwoLayerDiffieHellman) (a : Nat) (b : Nat) (rnd : Nat) :
    Except Fault Nat × TwoLayerDiffieHellman :=
  let a_c := a
  let s1 := { s with m_a2 := drawExponent b rnd }
  let b_int := toUint w s1.m_a2
  let ab := a_c ^ b_int
  let p_c := s1.m_P
  (cppMod ab p_c, s1)

/-- The constructor: it stores the four arguments and leaves `m_base`
unassigned. -/
def construct (ModificatedNum SecretNum1 SecretNum2 : Nat) (Mode : String) :
    TwoLayerDiffieHellman :=
  { m_base := none, m_P := ModificatedNum, m_a1 := SecretNum1, m_a2 := SecretNum2,
    m_mode := Mode }

/-- The member function `Set`: it overwrites the four user members and does not
touch `m_base`. -/
def Set (s : TwoLayerDiffieHellman) (ModificatedNum SecretNum1 SecretNum2 : Nat)
    (Mode : String) : TwoLayerDiffieHellman :=
  { s with m_P := ModificatedNum, m_a1 := SecretNum1, m_a2 := SecretNum2, m_mode := Mode }

/-- The member function `Part1_GetPublicValue`. -/
def Part1_GetPublicValue (w : Nat) (s : TwoLayerDiffieHellman) :
    Except Fault Nat × TwoLayerDiffieHellman :=
  (power w m_G s.m_a1 s.m_P, s)

/-- The member function `Part1_GetSymmetricBaseNum`. -/
def Part1_GetSymmetricBaseNum (w : Nat) (s : TwoLayerDiffieHellman) (x : Nat) :
    Except Fault Unit × TwoLayerDiffieHellman :=
  match power w x s.m_a1 m_Pp1 with
  | Except.error e => (Except.error e, s)
  | Except.ok u =>
    if u = 0 then
      (Except.ok (), { s with m_base := some 2 })
    else if u = 1 then
      (Except.ok (), { s with m_base := some 3 })
    else
      (Except.error Fault.roundOneResidue, s)

/-- The range that `Part2_GetPublicValue` passes to `power_2_pub` for a mode
string other than `"manual"`. -/
def autoRange (mode : String) : Nat :=
  if mode = "auto mode enabled 36m" then m_range_36m
  else if mode = "auto mode enabled 64m" then m_range_64m
  else if mode = "auto mode enabled 121m" then m_range_121m
  else if mode = "auto mode enabled 256m" then m_range_256m
  else if mode = "auto mode enabled 400m" then m_range_400m
  else m_range_64m

/-- The member function `Part2_GetPublicValue`; `rnd` is the value of
`(unsigned int) rand()`, consumed in the automatic modes only. -/
def Part2_GetPublicValue (w : Nat) (s : TwoLayerDiffieHellman) (rnd : Nat) :
    Except Fault Nat × TwoLayerDiffieHellman :=
  match s.m_base with
  | none => (Except.error Fault.indeterminateBase, s)
  | some base =>
    if s.m_mode = "manual" then
      (powerUSI w base s.m_a2 s.m_P, s)
    else
      power_2_pub w s base (autoRange s.m_mode) rnd

/-- The member function `Part2_GetSymmetricSecret`. -/
def Part2_GetSymmetricSecret (w : Nat) (s : TwoLayerDiffieHellman) (x : Nat) :
    Except Fault Nat × TwoLayerDiffieHellman :=
  (power w x s.m_a2 s.m_P, s)

/-- Round 1 of the exchange scenario between two sessions `A` and `B`: each
side emits its public value and then accepts the value of the other side.  The
result is the pair of sessions after both `Part1_GetSymmetricBaseNum` calls, or
the first fault met (side `A` first). -/
def exchangeRound1 (w : Nat) (A B : TwoLayerDiffieHellman) :
    Except Fault (TwoLayerDiffieHellman × TwoLayerDiffieHellman) :=
  match (Part1_GetPublicValue w A).1, (Part1_GetPublicValue w B).1 with
  | Except.error e, _ => Except.error e
  | Except.ok _, Except.error e => Except.error e
  | Except.ok xA, Except.ok xB =>
    match Part1_GetSymmetricBaseNum w A xB, Part1_GetSymmetricBaseNum w B xA with
    | (Except.error e, _), _ => Except.error e
    | (Except.ok _, _), (Except.error e, _) => Except.error e
    | (Except.ok _, A1), (Except.ok _, B1) => Except.ok (A1, B1)

/-- Round 2 of the exchange scenario: each side emits its Round 2 public value
(`rndA`, `rndB` are the draws, used in the automatic modes only) and then
computes the secret from the value of the other side.  The result is the pair
of secrets (side `A` first), or the first fault met. -/
def exchangeRound2 (w : Nat) (A1 B1 : TwoLayerDiffieHellman) (rndA rndB : Nat) :
    Except Fault (Nat × Nat) :=
  match Part2_GetPublicValue w A1 rndA, Part2_GetPublicValue w B1 rndB with
  | (Except.error e, _), _ => Except.error e
  | (Except.ok _, _), (Except.error e, _) => Except.error e
  | (Except.ok yA, A2), (Except.ok yB, B2) =>
    match (Part2_GetSymmetricSecret w A2 yB).1, (Part2_GetSymmetricSecret w B2 yA).1 with
    | Except.error e, _ => Except.error e
    | Except.ok _, Except.error e => Except.error e
    | Except.ok kA, Except.ok kB => Except.ok (kA, kB)

/-- The full exchange scenario: Round 1 followed by Round 2. -/
def fullExchange (w : Nat) (A B : TwoLayerDiffieHellman) (rndA rndB : Nat) :
    Except Fault (Nat × Nat) :=
  match exchangeRound1 w A B with
  | Except.error e => Except.error e
  | Except.ok (A1, B1) => exchangeRound2 w A1 B1 rndA rndB

/-- One call of a public member function by the owner of a session. -/
inductive Call where
  | Set (ModificatedNum SecretNum1 SecretNum2 : Nat) (Mode : String)
  | Part1_GetPublicValue
  | Part1_GetSymmetricBaseNum (x : Nat)
  | Part2_GetPublicValue (rnd : Nat)
  | Part2_GetSymmetricSecret (x : Nat)
  deriving DecidableEq, Repr

/-- What the caller observes of one call (`none` for a function returning
`void`) and the session after it. -/
def call (w : Nat) (s : TwoLayerDiffieHellman) :
    Call → Except Fault (Option Nat) × TwoLayerDiffieHellman
  | Call.Set P a1 a2 mode => (Except.ok none, Set s P a1 a2 mode)
  | Call.Part1_GetPublicValue =>
    ((Part1_GetPublicValue w s).1.map some, (Part1_GetPublicValue w s).2)
  | Call.Part1_GetSymmetricBaseNum x =>
    ((Part1_GetSymmetricBaseNum w s x).1.map (fun _ => none),
      (Part1_GetSymmetricBaseNum w s x).2)
  | Call.Part2_GetPublicValue rnd =>
    ((Part2_GetPublicValue w s rnd).1.map some, (Part2_GetPublicValue w s rnd).2)
  | Call.Part2_GetSymmetricSecret x =>
    ((Part2_GetSymmetricSecret w s x).1.map some, (Part2_GetSymmetricSecret w s x).2)

/-- A sequence of calls on one session, the caller catching every exception:
the list of observations and the final session. -/
def run (w : Nat) (s : TwoLayerDiffieHellman) :
    List Call → List (Except Fault (Option Nat)) × TwoLayerDiffieHellman
  | [] => ([], s)
  | c :: cs => ((call w s c).1 :: (run w (call w s c).2 cs).1, (run w (call w s c).2 cs).2)

/-- The calls other than `Part2_GetPublicValue`. -/
def Call.notPart2Public : Call → Bool
  | Call.Part2_GetPublicValue _ => false
  | _ => true

/-- The calls that read neither `m_base` nor the draw: every call other than
`Set` and `Part2_GetPublicValue`. -/
def Call.orderFree : Call → Bool
  | Call.Part1_GetPublicValue => true
  | Call.Part1_GetSymmetricBaseNum _ => true
  | Call.Part2_GetSymmetricSecret _ => true
  | _ => false

/-- Two sessions hold the same user members; `m_base` may differ. -/
def sameParameters (s t : TwoLayerDiffieHellman) : Prop :=
  s.m_P = t.m_P ∧ s.m_a1 = t.m_a1 ∧ s.m_a2 = t.m_a2 ∧ s.m_mode = t.m_mode

instance (s t : TwoLayerDiffieHellman) : Decidable (sameParameters s t) := by
  unfold sameParameters
  infer_instance

/-! Auxiliary facts about the primitive and about sequences of calls. -/

theorem powerUSI_eq_power (w a b P : Nat) : powerUSI w a b P = power w a b P := rfl

theorem cppMod_of_pos {P : Nat} (ab : Nat) (hP : 1 ≤ P) : cppMod ab P = Except.ok (ab % P) := by
  unfold cppMod
  rw [if_neg (by omega)]

theorem power_of_ne_one {w a b P : Nat} (hb : b ≠ 1) (hP : 1 ≤ P) :
    power w a b P = Except.ok (a ^ toUint w b % P) := by
  unfold power
  rw [if_neg hb]
  exact cppMod_of_pos _ hP

theorem power_one (w a P : Nat) : power w a 1 P = Except.ok a := by
  unfold power
  rw [if_pos rfl]

/-- Two sides that raise the same base `g` to their exponents and then raise
the value of the other side to their own exponent obtain the same number. -/
theorem power_agree (w g a b P : Nat) (hP : 1 ≤ P) :
    ∃ X Y k, powerUSI w g a P = Except.ok X ∧ powerUSI w g b P = Except.ok Y ∧
      power w Y a P = Except.ok k ∧ power w X b P = Except.ok k := by
  simp only [powerUSI_eq_power]
  by_cases ha : a = 1
  · by_cases hb : b = 1
    · subst ha; subst hb
      exact ⟨g, g, g, power_one _ _ _, power_one _ _ _, power_one _ _ _, power_one _ _ _⟩
    · subst ha
      refine ⟨g, g ^ toUint w b % P, g ^ toUint w b % P, power_one _ _ _,
        power_of_ne_one hb hP, power_one _ _ _, power_of_ne_one hb hP⟩
  · by_cases hb : b = 1
    · subst hb
      refine ⟨g ^ toUint w a % P, g, g ^ toUint w a % P, power_of_ne_one ha hP,
        power_one _ _ _, power_of_ne_one ha hP, power_one _ _ _⟩
    · refine ⟨g ^ toUint w a % P, g ^ toUint w b % P, g ^ (toUint w a * toUint w b) % P,
        power_of_ne_one ha hP, power_of_ne_one hb hP, ?_, ?_⟩
      · rw [power_of_ne_one ha hP, ← Nat.pow_mod, ← pow_mul, Nat.mul_comm]
      · rw [power_of_ne_one hb hP, ← Nat.pow_mod, ← pow_mul]

/-- A successful `Part1_GetSymmetricBaseNum` changes `m_base` only, to 2 or 3. -/
theorem accept_ok_shape {w : Nat} {s s1 : TwoLayerDiffieHellman} {x : Nat} {r : Unit}
    (h : Part1_GetSymmetricBaseNum w s x = (Except.ok r, s1)) :
    s1 = { s with m_base := some 2 } ∨ s1 = { s with m_base := some 3 } := by
  unfold Part1_GetSymmetricBaseNum at h
  split at h
  · simp at h
  · split_ifs at h
    · simp only [Prod.mk.injEq] at h
      exact Or.inl h.2.symm
    · simp only [Prod.mk.injEq] at h
      exact Or.inr h.2.symm
    · simp at h

/-- Both sessions that leave a successful Round 1 differ from the sessions that
entered it in `m_base` only. -/
theorem exchangeRound1_ok_shape {w : Nat} {A B A1 B1 : TwoLayerDiffieHellman}
    (h : exchangeRound1 w A B = Except.ok (A1, B1)) :
    (∃ g, A1 = { A with m_base := some g }) ∧ (∃ g, B1 = { B with m_base := some g }) := by
  unfold exchangeRound1 at h
  split at h
  · simp at h
  · simp at h
  · split at h
    · simp at h
    · simp at h
    · rename_i hA hB
      simp only [Except.ok.injEq, Prod.mk.injEq] at h
      obtain ⟨h1, h2⟩ := h
      subst h1; subst h2
      constructor
      · rcases accept_ok_shape hA with h | h
        · exact ⟨2, h⟩
        · exact ⟨3, h⟩
      · rcases accept_ok_shape hB with h | h
        · exact ⟨2, h⟩
        · exact ⟨3, h⟩

/-- Round 2 between two manual-mode sessions with the same modulus `P ≥ 1` and
the same assigned base returns the same secret on both sides. -/
theorem exchangeRound2_manual_agree (w g P a1A a2A a1B a2B rndA rndB : Nat) (hP : 1 ≤ P) :
    ∃ k, exchangeRound2 w
        { m_base := some g, m_P := P, m_a1 := a1A, m_a2 := a2A, m_mode := "manual" }
        { m_base := some g, m_P := P, m_a1 := a1B, m_a2 := a2B, m_mode := "manual" }
        rndA rndB = Except.ok (k, k) := by
  obtain ⟨X, Y, k, hX, hY, hkA, hkB⟩ := power_agree w g a2A a2B P hP
  refine ⟨k, ?_⟩
  simp [exchangeRound2, Part2_GetPublicValue, Part2_GetSymmetricSecret, hX, hY, hkA, hkB]

/-- A width of at least one bit keeps a non-zero exponent non-zero. -/
theorem toUint_ne_zero {w b : Nat} (hw : 1 ≤ w) (hb : b ≠ 0) : toUint w b ≠ 0 := by
  unfold toUint
  have := Nat.one_lt_two_pow (Nat.one_le_iff_ne_zero.mp hw)
  split_ifs <;> omega

/-- A positive power has the parity of its base. -/
theorem pow_mod_two (x k : Nat) (hk : k ≠ 0) : x ^ k % 2 = x % 2 := by
  rcases Nat.mod_two_eq_zero_or_one x with h | h
  · simp [Nat.pow_mod, h, hk]
  · simp [Nat.pow_mod, h]

/-- The two outcomes of `Part1_GetSymmetricBaseNum` when the exponent is not 1:
the residue is below 2, so the call never throws. -/
theorem accept_of_ne_one (w : Nat) (s : TwoLayerDiffieHellman) (x : Nat) (h1 : s.m_a1 ≠ 1) :
    Part1_GetSymmetricBaseNum w s x =
      (Except.ok (),
        { s with m_base := some (if x ^ toUint w s.m_a1 % 2 = 0 then 2 else 3) }) := by
  unfold Part1_GetSymmetricBaseNum m_Pp1
  rw [power_of_ne_one h1 (show 1 ≤ 2 by decide)]
  have hlt : x ^ toUint w s.m_a1 % 2 < 2 := Nat.mod_lt _ (by decide)
  by_cases h0 : x ^ toUint w s.m_a1 % 2 = 0
  · simp [h0]
  · have h : x ^ toUint w s.m_a1 % 2 = 1 := by omega
    simp [h]

/-- The outcome of `Part1_GetSymmetricBaseNum` when the exponent is 1: the peer
value itself is the residue. -/
theorem accept_of_eq_one (w : Nat) (s : TwoLayerDiffieHellman) (x : Nat) (h1 : s.m_a1 = 1) :
    Part1_GetSymmetricBaseNum w s x =
      if x = 0 then (Except.ok (), { s with m_base := some 2 })
      else if x = 1 then (Except.ok (), { s with m_base := some 3 })
      else (Except.error Fault.roundOneResidue, s) := by
  unfold Part1_GetSymmetricBaseNum m_Pp1
  rw [h1, power_one]

/-- Sessions with the same user members that differ at most in `m_base` and
then get the same `m_base` are equal. -/
theorem with_base_eq {s t : TwoLayerDiffieHellman} (h : sameParameters s t) (b : Option Nat) :
    { s with m_base := b } = { t with m_base := b } := by
  obtain ⟨h1, h2, h3, h4⟩ := h
  cases s
  cases t
  simp only at h1 h2 h3 h4
  simp [h1, h2, h3, h4]

/-- On sessions with the same user members a call other than
`Part2_GetPublicValue` is observed alike and leaves sessions with the same user
members. -/
theorem call_sameParameters (w : Nat) {s t : TwoLayerDiffieHellman} (h : sameParameters s t)
    (c : Call) (hc : c.notPart2Public = true) :
    (call w s c).1 = (call w t c).1 ∧ sameParameters (call w s c).2 (call w t c).2 := by
  obtain ⟨h1, h2, h3, h4⟩ := h
  cases c with
  | Set P a1 a2 mode => exact ⟨rfl, rfl, rfl, rfl, rfl⟩
  | Part1_GetPublicValue =>
    simp only [call, Part1_GetPublicValue, h1, h2]
    exact ⟨trivial, h1, h2, h3, h4⟩
  | Part1_GetSymmetricBaseNum x =>
    have hp : power w x s.m_a1 m_Pp1 = power w x t.m_a1 m_Pp1 := by rw [h2]
    simp only [call, Part1_GetSymmetricBaseNum, hp]
    cases power w x t.m_a1 m_Pp1 with
    | error e => exact ⟨rfl, h1, h2, h3, h4⟩
    | ok u =>
      dsimp only
      split_ifs
      · exact ⟨rfl, h1, h2, h3, h4⟩
      · exact ⟨rfl, h1, h2, h3, h4⟩
      · exact ⟨rfl, h1, h2, h3, h4⟩
  | Part2_GetPublicValue rnd => simp [Call.notPart2Public] at hc
  | Part2_GetSymmetricSecret x =>
    simp only [call, Part2_GetSymmetricSecret, h1, h3]
    exact ⟨trivial, h1, h2, h3, h4⟩

/-- A call that is `orderFree` leaves the user members as they were. -/
theorem call_orderFree_sameParameters (w : Nat) (s : TwoLayerDiffieHellman) (c : Call)
    (hc : c.orderFree = true) : sameParameters (call w s c).2 s := by
  cases c with
  | Set P a1 a2 mode => simp [Call.orderFree] at hc
  | Part1_GetPublicValue => exact ⟨rfl, rfl, rfl, rfl⟩
  | Part1_GetSymmetricBaseNum x =>
    simp only [call, Part1_GetSymmetricBaseNum]
    cases power w x s.m_a1 m_Pp1 with
    | error e => exact ⟨rfl, rfl, rfl, rfl⟩
    | ok u =>
      dsimp only
      split_ifs
      · exact ⟨rfl, rfl, rfl, rfl⟩
      · exact ⟨rfl, rfl, rfl, rfl⟩
      · exact ⟨rfl, rfl, rfl, rfl⟩
  | Part2_GetPublicValue rnd => simp [Call.orderFree] at hc
  | Part2_GetSymmetricSecret x => exact ⟨rfl, rfl, rfl, rfl⟩

theorem orderFree_notPart2Public (c : Call) (hc : c.orderFree = true) :
    c.notPart2Public = true := by
  cases c <;> simp_all [Call.orderFree, Call.notPart2Public]

/-- A successful `Part1_GetSymmetricBaseNum` brings two sessions with the same
user members to the same session. -/
theorem accept_sameParameters_eq (w : Nat) {s t : TwoLayerDiffieHellman}
    (h : sameParameters s t) (x : Nat)
    (hok : (call w t (Call.Part1_GetSymmetricBaseNum x)).1 = Except.ok none) :
    call w s (Call.Part1_GetSymmetricBaseNum x) = call w t (Call.Part1_GetSymmetricBaseNum x) := by
  have hq : power w x s.m_a1 m_Pp1 = power w x t.m_a1 m_Pp1 := by rw [h.2.1]
  simp only [call, Part1_GetSymmetricBaseNum, hq] at hok ⊢
  cases hp : power w x t.m_a1 m_Pp1 with
  | error e => rw [hp] at hok; simp [Except.map] at hok
  | ok u =>
    rw [hp] at hok
    dsimp only at hok ⊢
    split_ifs at hok ⊢
    · rw [with_base_eq h]
    · rw [with_base_eq h]
    · simp [Except.map] at hok

theorem run_append (w : Nat) (s : TwoLayerDiffieHellman) (pre post : List Call) :
    run w s (pre ++ post) =
      ((run w s pre).1 ++ (run w (run w s pre).2 post).1, (run w (run w s pre).2 post).2) := by
  induction pre generalizing s with
  | nil => rfl
  | cons c cs ih => simp [run, ih]

/-- Sequences without `Part2_GetPublicValue` are observed alike on sessions with
the same user members. -/
theorem run_sameParameters (w : Nat) (cs : List Call) :
    ∀ {s t : TwoLayerDiffieHellman}, sameParameters s t →
      cs.all Call.notPart2Public = true →
      (run w s cs).1 = (run w t cs).1 ∧ sameParameters (run w s cs).2 (run w t cs).2 := by
  induction cs with
  | nil => intro s t h _; exact ⟨rfl, h⟩
  | cons c cs ih =>
    intro s t h hall
    rw [List.all_cons, Bool.and_eq_true] at hall
    obtain ⟨hobs, hnext⟩ := call_sameParameters w h c hall.1
    obtain ⟨hobs2, hfin⟩ := ih hnext hall.2
    exact ⟨by simp only [run, hobs, hobs2], hfin⟩

/-- Sequences of `orderFree` calls leave the user members as they were. -/
theorem run_orderFree_sameParameters (w : Nat) (cs : List Call) :
    ∀ s : TwoLayerDiffieHellman, cs.all Call.orderFree = true →
      sameParameters (run w s cs).2 s := by
  induction cs with
  | nil => intro s _; exact ⟨rfl, rfl, rfl, rfl⟩
  | cons c cs ih =>
    intro s hall
    rw [List.all_cons, Bool.and_eq_true] at hall
    obtain ⟨a1, a2, a3, a4⟩ := ih (call w s c).2 hall.2
    obtain ⟨b1, b2, b3, b4⟩ := call_orderFree_sameParameters w s c hall.1
    exact ⟨a1.trans b1, a2.trans b2, a3.trans b3, a4.trans b4⟩

/-- The exponent stored by `power_2_pub`, with the signed comparison
`b - a2 ≥ 2` written as `a2 + 2 ≤ b`. -/
theorem drawExponent_eq (b rnd : Nat) :
    drawExponent b rnd = if rnd % b + 2 ≤ b then rnd % b + 2 else rnd % b := by
  unfold drawExponent
  dsimp only
  split_ifs <;> omega

/-- Every range that `Part2_GetPublicValue` can pass on is at least 6000. -/
theorem autoRange_ge (mode : String) : 6000 ≤ autoRange mode := by
  unfold autoRange m_range_36m m_range_64m m_range_121m m_range_256m m_range_400m
  split_ifs <;> decide

/-- With a range of at least 3 the stored exponent is at least 2 and at most
the range. -/
theorem drawExponent_bounds {b : Nat} (hb : 3 ≤ b) (rnd : Nat) :
    2 ≤ drawExponent b rnd ∧ drawExponent b rnd ≤ b := by
  rw [drawExponent_eq]
  have := Nat.mod_lt rnd (show 0 < b by omega)
  split_ifs <;> omega

/-- The automatic branch of `Part2_GetPublicValue` on a session whose base is
assigned. -/
theorem part2_public_auto (w : Nat) (s : TwoLayerDiffieHellman) (g rnd : Nat)
    (hmode : s.m_mode ≠ "manual") (hbase : s.m_base = some g) :
    Part2_GetPublicValue w s rnd =
      (cppMod (g ^ toUint w (drawExponent (autoRange s.m_mode) rnd)) s.m_P,
        { s with m_a2 := drawExponent (autoRange s.m_mode) rnd }) := by
  obtain ⟨b, P, a1, a2, mode⟩ := s
  simp only at hbase hmode
  subst hbase
  simp only [Part2_GetPublicValue, power_2_pub, if_neg hmode]

/-- For an exponent other than 1 the body of `power_2_pub` computes what
`power` computes. -/
theorem cppMod_pow_eq_power (w g e P : Nat) (he : e ≠ 1) :
    cppMod (g ^ toUint w e) P = power w g e P := by
  unfold power
  rw [if_neg he]

/-- An exponent that does not fit the `w`-bit unsigned integer is read as the
largest value of that type. -/
theorem toUint_of_not_fit {w b : Nat} (hfit : 2 ^ w ≤ b) : toUint w b = 2 ^ w - 1 := by
  unfold toUint
  rw [if_neg (by omega)]

/-- The result of `power` for an exponent other than 1 that does not fit. -/
theorem power_of_not_fit {w a b P : Nat} (hb : b ≠ 1) (hfit : 2 ^ w ≤ b) (hP : 1 ≤ P) :
    power w a b P = Except.ok (a ^ (2 ^ w - 1) % P) := by
  rw [power_of_ne_one hb hP, toUint_of_not_fit hfit]

/-- With modulus zero `power` throws for every exponent other than 1. -/
theorem power_modulus_zero {w a b : Nat} (hb : b ≠ 1) :
    power w a b 0 = Except.error Fault.divisionByZero := by
  unfold power
  rw [if_neg hb]
  rfl

/-- The powers of 2 modulo 23 have period 11. -/
theorem two_pow_mod_23 (k : Nat) : 2 ^ (11 * k + 3) % 23 = 8 := by
  rw [pow_add, pow_mul, Nat.mul_mod, Nat.pow_mod]
  norm_num

/-- The power of 2 by the largest 32-bit value, modulo 23. -/
theorem two_pow_max32_mod_23 : 2 ^ (2 ^ 32 - 1) % 23 = 8 := by
  have h : 2 ^ 32 - 1 = 11 * 390451572 + 3 := by norm_num
  rw [h]
  exact two_pow_mod_23 _

/-- The outcome of `Part1_GetSymmetricBaseNum` is fixed by `a1` and the peer
value: either every session with that `a1` gets the same base, 2 or 3, or every
such session throws and stays as it was. -/
theorem accept_outcome (w : Nat) (a1 x : Nat) :
    (∃ g, (g = 2 ∨ g = 3) ∧ ∀ t : TwoLayerDiffieHellman, t.m_a1 = a1 →
      Part1_GetSymmetricBaseNum w t x = (Except.ok (), { t with m_base := some g })) ∨
    (∀ t : TwoLayerDiffieHellman, t.m_a1 = a1 →
      Part1_GetSymmetricBaseNum w t x = (Except.error Fault.roundOneResidue, t)) := by
  by_cases h1 : a1 = 1
  · by_cases hx0 : x = 0
    · refine Or.inl ⟨2, Or.inl rfl, fun t ht => ?_⟩
      rw [accept_of_eq_one w t x (ht.trans h1), if_pos hx0]
    · by_cases hx1 : x = 1
      · refine Or.inl ⟨3, Or.inr rfl, fun t ht => ?_⟩
        rw [accept_of_eq_one w t x (ht.trans h1), if_neg hx0, if_pos hx1]
      · refine Or.inr (fun t ht => ?_)
        rw [accept_of_eq_one w t x (ht.trans h1), if_neg hx0, if_neg hx1]
  · refine Or.inl ⟨if x ^ toUint w a1 % 2 = 0 then 2 else 3, ?_, fun t ht => ?_⟩
    · split_ifs
      · exact Or.inl rfl
      · exact Or.inr rfl
    · rw [accept_of_ne_one w t x (by rw [ht]; exact h1), ht]

/-- A call leaves `m_base` as it was, unless it is a successful
`Part1_GetSymmetricBaseNum`, which assigns 2 or 3. -/
theorem call_base (w : Nat) (s : TwoLayerDiffieHellman) (c : Call) :
    (call w s c).2.m_base = s.m_base ∨
    (∃ x, c = Call.Part1_GetSymmetricBaseNum x ∧ (call w s c).1 = Except.ok none ∧
      ((call w s c).2.m_base = some 2 ∨ (call w s c).2.m_base = some 3)) := by
  cases c with
  | Set P a1 a2 mode => exact Or.inl rfl
  | Part1_GetPublicValue => exact Or.inl rfl
  | Part1_GetSymmetricBaseNum x =>
    rcases accept_outcome w s.m_a1 x with ⟨g, hg, h⟩ | h
    · right
      refine ⟨x, rfl, ?_, ?_⟩
      · simp only [call, h s rfl]
        rfl
      · simp only [call, h s rfl]
        rcases hg with hg | hg
        · exact Or.inl (by rw [hg])
        · exact Or.inr (by rw [hg])
    · left
      simp only [call, h s rfl]
  | Part2_GetPublicValue rnd =>
    left
    obtain ⟨b, P, a1, a2, mode⟩ := s
    cases b with
    | none => rfl
    | some g =>
      simp only [call, Part2_GetPublicValue, power_2_pub]
      split_ifs <;> rfl
  | Part2_GetSymmetricSecret x => exact Or.inl rfl

/-- A sequence of calls keeps `m_base` unassigned or equal to 2 or 3. -/
theorem run_base (w : Nat) (cs : List Call) :
    ∀ s : TwoLayerDiffieHellman,
      (s.m_base = none ∨ s.m_base = some 2 ∨ s.m_base = some 3) →
      ((run w s cs).2.m_base = none ∨ (run w s cs).2.m_base = some 2 ∨
        (run w s cs).2.m_base = some 3) := by
  induction cs with
  | nil => intro s h; exact h
  | cons c cs ih =>
    intro s h
    apply ih (call w s c).2
    rcases call_base w s c with hsame | ⟨x, _, _, h2 | h3⟩
    · rw [hsame]; exact h
    · exact Or.inr (Or.inl h2)
    · exact Or.inr (Or.inr h3)

/-- On a session whose base is assigned, in whatever mode, the function
`Part2_GetPublicValue` returns what `powerUSI` returns for the exponent that it
leaves in `a2`, and it changes no other member. -/
theorem part2_public_any (w : Nat) (s : TwoLayerDiffieHellman) (g rnd : Nat)
    (hbase : s.m_base = some g) :
    ∃ e, Part2_GetPublicValue w s rnd = (powerUSI w g e s.m_P, { s with m_a2 := e }) := by
  by_cases hmode : s.m_mode = "manual"
  · refine ⟨s.m_a2, ?_⟩
    obtain ⟨b, P, a1, a2, mode⟩ := s
    simp only at hbase hmode
    subst hbase
    simp only [Part2_GetPublicValue, if_pos hmode]
  · refine ⟨drawExponent (autoRange s.m_mode) rnd, ?_⟩
    have hR := autoRange_ge s.m_mode
    have hne : drawExponent (autoRange s.m_mode) rnd ≠ 1 := by
      have := (drawExponent_bounds (show 3 ≤ autoRange s.m_mode by omega) rnd).1
      omega
    rw [part2_public_auto w s g rnd hmode hbase, cppMod_pow_eq_power w g _ s.m_P hne,
      powerUSI_eq_power]

/-! The claims of the specification. -/

/-- C1 (as amended): for every modulus `P ≥ 1` and all private exponents, when
two manual-mode sessions `(P, a1_A, a2_A)` and `(P, a1_B, a2_B)` run the full
exchange, both `Part1_GetSymmetricBaseNum` calls succeed and they leave the same
`m_base` on both sides, then both `Part2_GetSymmetricSecret` calls return a
value and the two values are equal. -/
theorem round_trip_of_equal_base (w P a1A a2A a1B a2B rndA rndB : Nat)
    (A1 B1 : TwoLayerDiffieHellman) (hP : 1 ≤ P)
    (hround1 : exchangeRound1 w (construct P a1A a2A "manual") (construct P a1B a2B "manual")
      = Except.ok (A1, B1))
    (hbase : A1.m_base = B1.m_base) :
    ∃ k, exchangeRound2 w A1 B1 rndA rndB = Except.ok (k, k) := by
  obtain ⟨⟨gA, hA⟩, ⟨gB, hB⟩⟩ := exchangeRound1_ok_shape hround1
  subst hA; subst hB
  simp only [construct, Option.some.injEq] at hbase
  subst hbase
  exact exchangeRound2_manual_agree w gA P a1A a2A a1B a2B rndA rndB hP

/-- The scenario `P = 23, a1_A = 6, a2_A = 15, a1_B = 15, a2_B = 27` of the
specification: Round 1 leaves base 2 on both sides and Round 2 returns a common
secret. -/
theorem round_trip_of_equal_base_witness :
    (1 ≤ 23) ∧
    exchangeRound1 32 (construct 23 6 15 "manual") (construct 23 15 27 "manual")
      = Except.ok ({ construct 23 6 15 "manual" with m_base := some 2 },
          { construct 23 15 27 "manual" with m_base := some 2 }) ∧
    ∃ k, exchangeRound2 32 { construct 23 6 15 "manual" with m_base := some 2 }
      { construct 23 15 27 "manual" with m_base := some 2 } 0 0 = Except.ok (k, k) :=
  ⟨by decide, by decide,
    round_trip_of_equal_base 32 23 6 15 15 27 0 0 _ _ (by decide) (by decide) rfl⟩

/-- C1 (counterexample): with `P = 23`, `a1_A = a1_B = 1`, `a2_A = 15`,
`a2_B = 27` both sides emit the unreduced `G = 2`, and accepting it with
exponent 1 leaves the residue 2, so `Part1_GetSymmetricBaseNum` throws and no
secret is produced. -/
theorem round_trip_fails_exponent_one :
    (2 ≤ 23 ∧ 1 ≤ 1 ∧ 1 ≤ 15 ∧ 1 ≤ 27) ∧
    (Part1_GetPublicValue 32 (construct 23 1 27 "manual")).1 = Except.ok 2 ∧
    (Part1_GetSymmetricBaseNum 32 (construct 23 1 15 "manual") 2).1
      = Except.error Fault.roundOneResidue ∧
    fullExchange 32 (construct 23 1 15 "manual") (construct 23 1 27 "manual") 0 0
      = Except.error Fault.roundOneResidue := by
  decide

/-- C2: for every base `a` and every modulus `P`, zero included, both `power`
and `powerUSI` return exactly `a` (not `a % P`) when the exponent is 1; for
instance base 7 under the moduli 0, 1 and 5. -/
theorem power_exponent_one (w a P : Nat) :
    power w a 1 P = Except.ok a ∧ powerUSI w a 1 P = Except.ok a ∧
    power w 7 1 0 = Except.ok 7 ∧ power w 7 1 1 = Except.ok 7 ∧
    powerUSI w 7 1 5 = Except.ok 7 := by
  simp [power, powerUSI]

/-- C3: for every base `a`, every exponent `b ≠ 1` below `2 ^ w` (the exponent
fits the `w`-bit unsigned integer) and every modulus `P ≥ 1`, `power` returns
the exact power `a ^ b` reduced modulo `P`. -/
theorem power_eq_pow_mod (w a b P : Nat) (hb : b ≠ 1) (hfit : b < 2 ^ w) (hP : 1 ≤ P) :
    power w a b P = Except.ok (a ^ b % P) := by
  rw [power_of_ne_one hb hP]
  unfold toUint
  rw [if_pos hfit]

/-- The exponent 0 under modulus 1 and under modulus 23, and the exponent 15
under modulus 23, with a 32-bit exponent type. -/
theorem power_eq_pow_mod_witness :
    ((0 : Nat) ≠ 1 ∧ 0 < 2 ^ 32 ∧ 1 ≤ 23) ∧
    power 32 5 0 23 = Except.ok 1 ∧ power 32 5 0 1 = Except.ok 0 ∧
    power 32 5 15 23 = Except.ok 19 :=
  ⟨by decide, power_eq_pow_mod 32 5 0 23 (by decide) (by decide) (by decide),
    power_eq_pow_mod 32 5 0 1 (by decide) (by decide) (by decide),
    power_eq_pow_mod 32 5 15 23 (by decide) (by decide) (by decide)⟩

/-- C4 (the code at the failing input): for the session `(23, 6, 15, manual)`
`Part1_GetPublicValue` returns `2 ^ 6 % 23 = 18`, the power reduced modulo the
modulus `m_P` of the user, whereas the power reduced modulo `m_Pp1 = 2` is 0;
and sessions that differ in `m_P` only return different values. -/
theorem part1_public_value_uses_m_P :
    (Part1_GetPublicValue 32 (construct 23 6 15 "manual")).1 = Except.ok 18 ∧
    power 32 m_G 6 m_Pp1 = Except.ok 0 ∧
    (Part1_GetPublicValue 32 (construct 29 6 15 "manual")).1 = Except.ok 6 := by
  decide

/-- C5: for every session and peer value `x`, `Part1_GetSymmetricBaseNum`
computes `u = power x a1 2`, which returns a value, and then assigns 2 to
`m_base` if `u = 0`, assigns 3 if `u = 1`, and otherwise throws and leaves the
session as it was.  With `x = 0, a1 = 3` the base is 2 (the exponent type having
at least one bit) and with `x = 1, a1 = 5` it is 3. -/
theorem derived_base_rule (w : Nat) (s : TwoLayerDiffieHellman) (x : Nat) :
    (∃ u, power w x s.m_a1 2 = Except.ok u ∧
      Part1_GetSymmetricBaseNum w s x =
        if u = 0 then (Except.ok (), { s with m_base := some 2 })
        else if u = 1 then (Except.ok (), { s with m_base := some 3 })
        else (Except.error Fault.roundOneResidue, s)) ∧
    (1 ≤ w → Part1_GetSymmetricBaseNum w { s with m_a1 := 3 } 0
      = (Except.ok (), { s with m_a1 := 3, m_base := some 2 })) ∧
    Part1_GetSymmetricBaseNum w { s with m_a1 := 5 } 1
      = (Except.ok (), { s with m_a1 := 5, m_base := some 3 }) := by
  refine ⟨?_, ?_, ?_⟩
  · by_cases h1 : s.m_a1 = 1
    · refine ⟨x, by rw [h1]; exact power_one _ _ _, ?_⟩
      unfold Part1_GetSymmetricBaseNum m_Pp1
      rw [h1, power_one]
    · refine ⟨x ^ toUint w s.m_a1 % 2, power_of_ne_one h1 (by decide), ?_⟩
      unfold Part1_GetSymmetricBaseNum m_Pp1
      rw [power_of_ne_one h1 (by decide)]
  · intro hw
    unfold Part1_GetSymmetricBaseNum m_Pp1
    dsimp only
    rw [power_of_ne_one (show (3 : Nat) ≠ 1 by decide) (show 1 ≤ 2 by decide),
      zero_pow (toUint_ne_zero hw (by decide))]
    rfl
  · unfold Part1_GetSymmetricBaseNum m_Pp1
    dsimp only
    rw [power_of_ne_one (show (5 : Nat) ≠ 1 by decide) (show 1 ≤ 2 by decide), one_pow]
    rfl

/-- The two scenarios of the specification on a session `(23, _, 15, manual)`
with a 32-bit exponent type, and a peer value 2 met with exponent 1. -/
theorem derived_base_rule_witness :
    (Part1_GetSymmetricBaseNum 32 (construct 23 3 15 "manual") 0).2.m_base = some 2 ∧
    (Part1_GetSymmetricBaseNum 32 (construct 23 5 15 "manual") 1).2.m_base = some 3 ∧
    Part1_GetSymmetricBaseNum 32 (construct 23 1 15 "manual") 2
      = (Except.error Fault.roundOneResidue, construct 23 1 15 "manual") :=
  ⟨congrArg (fun r => r.2.m_base)
      ((derived_base_rule 32 (construct 23 3 15 "manual") 0).2.1 (by decide)),
    congrArg (fun r => r.2.m_base)
      (derived_base_rule 32 (construct 23 5 15 "manual") 1).2.2,
    by decide⟩

/-- C6: with an exponent type of at least one bit, for every `a1 ≥ 2`
`Part1_GetSymmetricBaseNum` succeeds and assigns 2 to `m_base` when `x` is even
and 3 when `x` is odd; for `a1 = 1` it assigns 2 when `x = 0`, 3 when `x = 1`
and throws, leaving the session as it was, for every other `x`; and for every
`a1` the call throws if and only if `a1 = 1` and `x` is neither 0 nor 1. -/
theorem round1_residue_parity (w : Nat) (s : TwoLayerDiffieHellman) (x : Nat) (hw : 1 ≤ w) :
    (2 ≤ s.m_a1 → Part1_GetSymmetricBaseNum w s x =
      (Except.ok (), { s with m_base := some (if x % 2 = 0 then 2 else 3) })) ∧
    (s.m_a1 = 1 → Part1_GetSymmetricBaseNum w s x =
      if x = 0 then (Except.ok (), { s with m_base := some 2 })
      else if x = 1 then (Except.ok (), { s with m_base := some 3 })
      else (Except.error Fault.roundOneResidue, s)) ∧
    ((∃ e, (Part1_GetSymmetricBaseNum w s x).1 = Except.error e) ↔
      (s.m_a1 = 1 ∧ x ≠ 0 ∧ x ≠ 1)) := by
  refine ⟨?_, accept_of_eq_one w s x, ?_⟩
  · intro h2
    rw [accept_of_ne_one w s x (by omega), pow_mod_two x _ (toUint_ne_zero hw (by omega))]
  · by_cases h1 : s.m_a1 = 1
    · rw [accept_of_eq_one w s x h1]
      by_cases hx0 : x = 0
      · simp [hx0]
      · by_cases hx1 : x = 1
        · simp [hx1]
        · simp [hx0, hx1, h1]
    · rw [accept_of_ne_one w s x h1]
      simp [h1]

/-- A 32-bit exponent type: exponent 6 with an even and an odd peer value,
exponent 1 with the peer values 0, 1 and 2, and exponent 0. -/
theorem round1_residue_parity_witness :
    (1 ≤ 32) ∧
    (Part1_GetSymmetricBaseNum 32 (construct 23 6 15 "manual") 16).2.m_base = some 2 ∧
    (Part1_GetSymmetricBaseNum 32 (construct 23 6 15 "manual") 9).2.m_base = some 3 ∧
    (Part1_GetSymmetricBaseNum 32 (construct 23 1 15 "manual") 0).2.m_base = some 2 ∧
    (Part1_GetSymmetricBaseNum 32 (construct 23 1 15 "manual") 1).2.m_base = some 3 ∧
    Part1_GetSymmetricBaseNum 32 (construct 23 1 15 "manual") 2
      = (Except.error Fault.roundOneResidue, construct 23 1 15 "manual") ∧
    (Part1_GetSymmetricBaseNum 32 (construct 23 0 15 "manual") 2).1 = Except.ok () ∧
    ((∃ e, (Part1_GetSymmetricBaseNum 32 (construct 23 1 15 "manual") 2).1 = Except.error e) ↔
      ((construct 23 1 15 "manual").m_a1 = 1 ∧ (2 : Nat) ≠ 0 ∧ (2 : Nat) ≠ 1)) :=
  ⟨by decide, by decide, by decide, by decide, by decide, by decide, by decide,
    (round1_residue_parity 32 (construct 23 1 15 "manual") 2 (by decide)).2.2⟩

/-- C7: in manual mode, for every session whose `m_base` has been assigned a
value `g`, `Part2_GetPublicValue` returns what `powerUSI g a2 P` returns, which
is `g` itself, unreduced, when `a2 = 1`, and leaves every field of the session
as it was. -/
theorem part2_public_value_manual (w : Nat) (s : TwoLayerDiffieHellman) (g rnd : Nat)
    (hmode : s.m_mode = "manual") (hbase : s.m_base = some g) :
    Part2_GetPublicValue w s rnd = (powerUSI w g s.m_a2 s.m_P, s) ∧
    (s.m_a2 = 1 → Part2_GetPublicValue w s rnd = (Except.ok g, s)) := by
  have h : Part2_GetPublicValue w s rnd = (powerUSI w g s.m_a2 s.m_P, s) := by
    unfold Part2_GetPublicValue
    rw [hbase]
    dsimp only
    rw [if_pos hmode]
  refine ⟨h, ?_⟩
  intro h1
  rw [h, powerUSI_eq_power, h1, power_one]

/-- Base 3 with `a2 = 15` under modulus 23, and base 3 with `a2 = 1` under
modulus 2, where the value 3 is returned unreduced. -/
theorem part2_public_value_manual_witness :
    Part2_GetPublicValue 32
        { m_base := some 3, m_P := 23, m_a1 := 6, m_a2 := 15, m_mode := "manual" } 0
      = (Except.ok 12,
        { m_base := some 3, m_P := 23, m_a1 := 6, m_a2 := 15, m_mode := "manual" }) ∧
    Part2_GetPublicValue 32
        { m_base := some 3, m_P := 2, m_a1 := 6, m_a2 := 1, m_mode := "manual" } 0
      = (Except.ok 3,
        { m_base := some 3, m_P := 2, m_a1 := 6, m_a2 := 1, m_mode := "manual" }) :=
  ⟨(part2_public_value_manual 32
      { m_base := some 3, m_P := 23, m_a1 := 6, m_a2 := 15, m_mode := "manual" } 3 0
      rfl rfl).1.trans (by decide),
    (part2_public_value_manual 32
      { m_base := some 3, m_P := 2, m_a1 := 6, m_a2 := 1, m_mode := "manual" } 3 0
      rfl rfl).2 rfl⟩

/-- C8: for every session and every peer value `y`, `Part2_GetSymmetricSecret`
returns what `power y a2 P` returns for the current `a2` and leaves the session
as it was; after a `Part2_GetPublicValue` in an automatic mode the current `a2`
is the exponent drawn by that call, and the secret is computed with it. -/
theorem part2_shared_secret (w : Nat) (s : TwoLayerDiffieHellman) (y rnd g : Nat) :
    Part2_GetSymmetricSecret w s y = (power w y s.m_a2 s.m_P, s) ∧
    (s.m_mode ≠ "manual" → s.m_base = some g →
      (Part2_GetPublicValue w s rnd).2
        = { s with m_a2 := drawExponent (autoRange s.m_mode) rnd } ∧
      Part2_GetSymmetricSecret w (Part2_GetPublicValue w s rnd).2 y
        = (power w y (drawExponent (autoRange s.m_mode) rnd) s.m_P,
            (Part2_GetPublicValue w s rnd).2)) := by
  refine ⟨rfl, ?_⟩
  intro hmode hbase
  have h : (Part2_GetPublicValue w s rnd).2
      = { s with m_a2 := drawExponent (autoRange s.m_mode) rnd } := by
    obtain ⟨b, P, a1, a2, mode⟩ := s
    simp only at hbase hmode
    subst hbase
    simp only [Part2_GetPublicValue, power_2_pub, if_neg hmode]
  refine ⟨h, ?_⟩
  unfold Part2_GetSymmetricSecret
  rw [h]

/-- A session in the 36m mode with base 2 and the draw 5: the call
`Part2_GetPublicValue` overwrites `a2 = 15` by 7, and the secret for the peer
value 9 is `9 ^ 7 % 23 = 4`. -/
theorem part2_shared_secret_witness :
    Part2_GetSymmetricSecret 32 (construct 23 6 15 "manual") 5
      = (Except.ok 19, construct 23 6 15 "manual") ∧
    (Part2_GetPublicValue 32
      { m_base := some 2, m_P := 23, m_a1 := 6, m_a2 := 15,
        m_mode := "auto mode enabled 36m" } 5).2.m_a2 = 7 ∧
    (Part2_GetSymmetricSecret 32 (Part2_GetPublicValue 32
      { m_base := some 2, m_P := 23, m_a1 := 6, m_a2 := 15,
        m_mode := "auto mode enabled 36m" } 5).2 9).1 = Except.ok 4 :=
  ⟨(part2_shared_secret 32 (construct 23 6 15 "manual") 5 0 0).1.trans (by decide),
    (congrArg TwoLayerDiffieHellman.m_a2
      ((part2_shared_secret 32
        { m_base := some 2, m_P := 23, m_a1 := 6, m_a2 := 15,
          m_mode := "auto mode enabled 36m" } 9 5 2).2 (by decide) rfl).1).trans (by decide),
    (congrArg Prod.fst
      ((part2_shared_secret 32
        { m_base := some 2, m_P := 23, m_a1 := 6, m_a2 := 15,
          m_mode := "auto mode enabled 36m" } 9 5 2).2 (by decide) rfl).2).trans (by decide)⟩

/-- C9 (as amended): the session keeps no round state and no member function
checks the order of the calls.  After any sequence of `Part1_GetPublicValue`,
`Part1_GetSymmetricBaseNum` and `Part2_GetSymmetricSecret` calls, each of these
three gives the caller what it gives on the session before that sequence; in
particular `Part2_GetSymmetricSecret` returns a value on any session with
`P ≥ 1`, whether or not a peer value was accepted.  When one of these three or
a manual-mode `Part2_GetPublicValue` fails, the session is left as it was. -/
theorem no_call_order_check (w : Nat) (s : TwoLayerDiffieHellman) (pre : List Call)
    (c : Call) (y : Nat) :
    (pre.all Call.orderFree = true → c.orderFree = true →
      (call w (run w s pre).2 c).1 = (call w s c).1) ∧
    (1 ≤ s.m_P → ∃ k, (Part2_GetSymmetricSecret w s y).1 = Except.ok k) ∧
    (∀ e, (call w s c).1 = Except.error e →
      (c.orderFree = true ∨ s.m_mode = "manual") → (call w s c).2 = s) := by
  refine ⟨?_, ?_, ?_⟩
  · intro hpre hc
    exact (call_sameParameters w (run_orderFree_sameParameters w pre s hpre) c
      (orderFree_notPart2Public c hc)).1
  · intro hP
    by_cases h1 : s.m_a2 = 1
    · exact ⟨y, by simp [Part2_GetSymmetricSecret, h1, power_one]⟩
    · exact ⟨_, power_of_ne_one h1 hP⟩
  · intro e he hor
    cases c with
    | Set P a1 a2 mode => simp [call] at he
    | Part1_GetPublicValue => rfl
    | Part1_GetSymmetricBaseNum x =>
      simp only [call, Part1_GetSymmetricBaseNum] at he ⊢
      cases hp : power w x s.m_a1 m_Pp1 with
      | error e1 => rfl
      | ok u =>
        rw [hp] at he
        dsimp only at he ⊢
        split_ifs at he ⊢
        · simp [Except.map] at he
        · simp [Except.map] at he
        · rfl
    | Part2_GetPublicValue rnd =>
      have hmode : s.m_mode = "manual" := by
        rcases hor with h | h
        · simp [Call.orderFree] at h
        · exact h
      simp only [call, Part2_GetPublicValue]
      cases s.m_base with
      | none => rfl
      | some b =>
        dsimp only
        rw [if_pos hmode]
    | Part2_GetSymmetricSecret x => rfl

/-- A freshly constructed session `(23, 6, 15, manual)`: the secret for the
peer value 5 is the same before and after two Round 1 calls, and a failing
`Part1_GetSymmetricBaseNum` on `(23, 1, 15, manual)` changes nothing. -/
theorem no_call_order_check_witness :
    (call 32 (run 32 (construct 23 6 15 "manual")
        [Call.Part1_GetSymmetricBaseNum 1, Call.Part1_GetPublicValue]).2
      (Call.Part2_GetSymmetricSecret 5)).1
      = (call 32 (construct 23 6 15 "manual") (Call.Part2_GetSymmetricSecret 5)).1 ∧
    (∃ k, (Part2_GetSymmetricSecret 32 (construct 23 6 15 "manual") 5).1 = Except.ok k) ∧
    (call 32 (construct 23 1 15 "manual") (Call.Part1_GetSymmetricBaseNum 2)).2
      = construct 23 1 15 "manual" :=
  ⟨(no_call_order_check 32 (construct 23 6 15 "manual")
      [Call.Part1_GetSymmetricBaseNum 1, Call.Part1_GetPublicValue]
      (Call.Part2_GetSymmetricSecret 5) 5).1 (by decide) (by decide),
    (no_call_order_check 32 (construct 23 6 15 "manual") [] Call.Part1_GetPublicValue 5).2.1
      (by decide),
    (no_call_order_check 32 (construct 23 1 15 "manual") []
      (Call.Part1_GetSymmetricBaseNum 2) 5).2.2 Fault.roundOneResidue (by decide)
      (Or.inl (by decide))⟩

/-- C9 (counterexample): on the freshly constructed session `(23, 6, 15,
manual)` the calls `Part2_GetSymmetricSecret(5)`, `Part1_GetSymmetricBaseNum(1)`,
`Part1_GetPublicValue()`, `Part2_GetPublicValue()`, in this order, all succeed:
the first returns 19 although nothing was emitted or accepted before it. -/
theorem out_of_order_calls_succeed :
    (Part2_GetSymmetricSecret 32 (construct 23 6 15 "manual") 5).1 = Except.ok 19 ∧
    (run 32 (construct 23 6 15 "manual")
      [Call.Part2_GetSymmetricSecret 5, Call.Part1_GetSymmetricBaseNum 1,
        Call.Part1_GetPublicValue, Call.Part2_GetPublicValue 0]).1
      = [Except.ok (some 19), Except.ok none, Except.ok (some 18), Except.ok (some 12)] := by
  decide

/-- C10 (as amended): `Set` overwrites `P`, `a1`, `a2` and the mode and leaves
`m_base` as it was, so the session differs from a freshly constructed one with
the same parameters in `m_base` only.  Every following sequence of calls without
`Part2_GetPublicValue` is observed alike on both, and when such a sequence is
followed by a successful `Part1_GetSymmetricBaseNum` the two sessions are equal
from then on, so that everything after it is observed alike as well. -/
theorem set_keeps_base (w : Nat) (s : TwoLayerDiffieHellman) (P a1 a2 : Nat) (mode : String)
    (pre post : List Call) (x : Nat) :
    Set s P a1 a2 mode = { construct P a1 a2 mode with m_base := s.m_base } ∧
    (pre.all Call.notPart2Public = true →
      (run w (Set s P a1 a2 mode) pre).1 = (run w (construct P a1 a2 mode) pre).1) ∧
    (pre.all Call.notPart2Public = true →
      (call w (run w (construct P a1 a2 mode) pre).2 (Call.Part1_GetSymmetricBaseNum x)).1
        = Except.ok none →
      run w (Set s P a1 a2 mode) (pre ++ Call.Part1_GetSymmetricBaseNum x :: post)
        = run w (construct P a1 a2 mode) (pre ++ Call.Part1_GetSymmetricBaseNum x :: post)) := by
  have hsame : sameParameters (Set s P a1 a2 mode) (construct P a1 a2 mode) :=
    ⟨rfl, rfl, rfl, rfl⟩
  refine ⟨rfl, fun hpre => (run_sameParameters w pre hsame hpre).1, ?_⟩
  intro hpre hok
  obtain ⟨hobs, hfin⟩ := run_sameParameters w pre hsame hpre
  have hacc := accept_sameParameters_eq w hfin x hok
  rw [run_append, run_append, hobs]
  simp only [run, hacc]

/-- A session that accepted the peer value 1 with `a1 = 5` (base 3) and is then
reset to `(23, 6, 15, manual)`: Round 1 calls are observed as on a fresh
session, and after accepting the peer value 16 so is `Part2_GetPublicValue`. -/
theorem set_keeps_base_witness :
    (run 32 (Set (Part1_GetSymmetricBaseNum 32 (construct 23 5 15 "manual") 1).2
        23 6 15 "manual") [Call.Part1_GetPublicValue, Call.Part2_GetSymmetricSecret 5]).1
      = (run 32 (construct 23 6 15 "manual")
        [Call.Part1_GetPublicValue, Call.Part2_GetSymmetricSecret 5]).1 ∧
    run 32 (Set (Part1_GetSymmetricBaseNum 32 (construct 23 5 15 "manual") 1).2
        23 6 15 "manual")
        ([Call.Part1_GetPublicValue] ++ Call.Part1_GetSymmetricBaseNum 16 ::
          [Call.Part2_GetPublicValue 0])
      = run 32 (construct 23 6 15 "manual")
        ([Call.Part1_GetPublicValue] ++ Call.Part1_GetSymmetricBaseNum 16 ::
          [Call.Part2_GetPublicValue 0]) :=
  ⟨(set_keeps_base 32 (Part1_GetSymmetricBaseNum 32 (construct 23 5 15 "manual") 1).2
      23 6 15 "manual" [Call.Part1_GetPublicValue, Call.Part2_GetSymmetricSecret 5] []
      0).2.1 (by decide),
    (set_keeps_base 32 (Part1_GetSymmetricBaseNum 32 (construct 23 5 15 "manual") 1).2
      23 6 15 "manual" [Call.Part1_GetPublicValue] [Call.Part2_GetPublicValue 0]
      16).2.2 (by decide) (by decide)⟩

/-- C10 (counterexample): the session `(23, 5, 15, manual)` accepts the peer
value 1, which assigns 3 to `m_base`; after `Set(23, 6, 15, manual)` the base
is still 3, not unassigned, and `Part2_GetPublicValue` returns
`3 ^ 15 % 23 = 12`, whereas on a freshly constructed `(23, 6, 15, manual)` the
base is unassigned and the same call has no defined result. -/
theorem set_does_not_reset_base :
    (Set (Part1_GetSymmetricBaseNum 32 (construct 23 5 15 "manual") 1).2
      23 6 15 "manual").m_base = some 3 ∧
    (construct 23 6 15 "manual").m_base = none ∧
    (Part2_GetPublicValue 32
      (Set (Part1_GetSymmetricBaseNum 32 (construct 23 5 15 "manual") 1).2
        23 6 15 "manual") 0).1 = Except.ok 12 ∧
    (Part2_GetPublicValue 32 (construct 23 6 15 "manual") 0).1
      = Except.error Fault.indeterminateBase := by
  decide

/-- C11: in every automatic mode, with `R` the range of the mode and
`r = rnd % R` the draw, `r` lies in `[0, R)` and after `Part2_GetPublicValue`
the member `a2` is `r + 2`, inside `[2, R + 2)`, when the adjustment applied
(`R - r ≥ 2`, that is `r + 2 ≤ R`), and is `r`, inside `[R - 1, R)`, when it did
not. -/
theorem auto_exponent_range (w : Nat) (s : TwoLayerDiffieHellman) (g rnd : Nat)
    (hmode : s.m_mode ≠ "manual") (hbase : s.m_base = some g) :
    rnd % autoRange s.m_mode < autoRange s.m_mode ∧
    (rnd % autoRange s.m_mode + 2 ≤ autoRange s.m_mode →
      (Part2_GetPublicValue w s rnd).2.m_a2 = rnd % autoRange s.m_mode + 2 ∧
      2 ≤ (Part2_GetPublicValue w s rnd).2.m_a2 ∧
      (Part2_GetPublicValue w s rnd).2.m_a2 < autoRange s.m_mode + 2) ∧
    (¬ rnd % autoRange s.m_mode + 2 ≤ autoRange s.m_mode →
      (Part2_GetPublicValue w s rnd).2.m_a2 = rnd % autoRange s.m_mode ∧
      autoRange s.m_mode - 1 ≤ (Part2_GetPublicValue w s rnd).2.m_a2 ∧
      (Part2_GetPublicValue w s rnd).2.m_a2 < autoRange s.m_mode) := by
  have hR := autoRange_ge s.m_mode
  have hr := Nat.mod_lt rnd (show 0 < autoRange s.m_mode by omega)
  rw [part2_public_auto w s g rnd hmode hbase]
  dsimp only
  rw [drawExponent_eq]
  refine ⟨hr, ?_, ?_⟩
  · intro h
    rw [if_pos h]
    omega
  · intro h
    rw [if_neg h]
    omega

/-- The 36m mode (range 6000) with base 2 and modulus 23: the draws 0, 5998
and 5999 leave `a2` equal to 2, 6000 and 5999. -/
theorem auto_exponent_range_witness :
    (Part2_GetPublicValue 32
      { m_base := some 2, m_P := 23, m_a1 := 6, m_a2 := 15,
        m_mode := "auto mode enabled 36m" } 0).2.m_a2 = 2 ∧
    (Part2_GetPublicValue 32
      { m_base := some 2, m_P := 23, m_a1 := 6, m_a2 := 15,
        m_mode := "auto mode enabled 36m" } 5998).2.m_a2 = 6000 ∧
    (Part2_GetPublicValue 32
      { m_base := some 2, m_P := 23, m_a1 := 6, m_a2 := 15,
        m_mode := "auto mode enabled 36m" } 5999).2.m_a2 = 5999 :=
  ⟨((auto_exponent_range 32
      { m_base := some 2, m_P := 23, m_a1 := 6, m_a2 := 15,
        m_mode := "auto mode enabled 36m" } 2 0 (by decide) rfl).2.1 (by decide)).1,
    ((auto_exponent_range 32
      { m_base := some 2, m_P := 23, m_a1 := 6, m_a2 := 15,
        m_mode := "auto mode enabled 36m" } 2 5998 (by decide) rfl).2.1 (by decide)).1,
    ((auto_exponent_range 32
      { m_base := some 2, m_P := 23, m_a1 := 6, m_a2 := 15,
        m_mode := "auto mode enabled 36m" } 2 5999 (by decide) rfl).2.2 (by decide)).1⟩

/-- C12: in every automatic mode, with `R` the range of the mode, `r = rnd % R`
the draw, an assigned base `g` and `P ≥ 1`, `Part2_GetPublicValue` stores
`r + 2` in `a2` if `R - r ≥ 2` (that is `r + 2 ≤ R`) and `r` otherwise, changes
no other member, and returns a value, which is the value that `power` (and
`powerUSI`) returns for `g`, the stored `a2` and `P`; `Part2_GetSymmetricSecret`
then applies `power` to the same `a2`. -/
theorem part2_public_value_auto (w : Nat) (s : TwoLayerDiffieHellman) (g rnd y : Nat)
    (hmode : s.m_mode ≠ "manual") (hbase : s.m_base = some g) (hP : 1 ≤ s.m_P) :
    (Part2_GetPublicValue w s rnd).2 =
      { s with m_a2 := if rnd % autoRange s.m_mode + 2 ≤ autoRange s.m_mode
          then rnd % autoRange s.m_mode + 2 else rnd % autoRange s.m_mode } ∧
    (∃ v, (Part2_GetPublicValue w s rnd).1 = Except.ok v) ∧
    (Part2_GetPublicValue w s rnd).1
      = power w g (Part2_GetPublicValue w s rnd).2.m_a2 s.m_P ∧
    (Part2_GetPublicValue w s rnd).1
      = powerUSI w g (Part2_GetPublicValue w s rnd).2.m_a2 s.m_P ∧
    (Part2_GetSymmetricSecret w (Part2_GetPublicValue w s rnd).2 y).1
      = power w y (Part2_GetPublicValue w s rnd).2.m_a2 s.m_P := by
  have hR := autoRange_ge s.m_mode
  have hne : drawExponent (autoRange s.m_mode) rnd ≠ 1 := by
    have := (drawExponent_bounds (show 3 ≤ autoRange s.m_mode by omega) rnd).1
    omega
  have hval : (Part2_GetPublicValue w s rnd).1
      = power w g (Part2_GetPublicValue w s rnd).2.m_a2 s.m_P := by
    rw [part2_public_auto w s g rnd hmode hbase]
    exact cppMod_pow_eq_power w g _ s.m_P hne
  refine ⟨?_, ?_, hval, ?_, ?_⟩
  · rw [part2_public_auto w s g rnd hmode hbase, drawExponent_eq]
  · rw [part2_public_auto w s g rnd hmode hbase]
    exact ⟨_, cppMod_of_pos _ hP⟩
  · rw [powerUSI_eq_power]
    exact hval
  · rw [part2_public_auto w s g rnd hmode hbase]
    rfl

/-- Two sessions in the 36m mode with modulus 23.  With base 2 and the draw 5
the stored exponent is 7 and the value is `2 ^ 7 % 23 = 13`; with base 3 and
the draw 5999 the stored exponent is 5999 and the value is the one that `power`
returns for it. -/
theorem part2_public_value_auto_witness :
    Part2_GetPublicValue 32
        { m_base := some 2, m_P := 23, m_a1 := 6, m_a2 := 15,
          m_mode := "auto mode enabled 36m" } 5
      = (Except.ok 13,
        { m_base := some 2, m_P := 23, m_a1 := 6, m_a2 := 7,
          m_mode := "auto mode enabled 36m" }) ∧
    (Part2_GetPublicValue 32
        { m_base := some 3, m_P := 23, m_a1 := 6, m_a2 := 15,
          m_mode := "auto mode enabled 36m" } 5999).2.m_a2 = 5999 ∧
    (Part2_GetPublicValue 32
        { m_base := some 3, m_P := 23, m_a1 := 6, m_a2 := 15,
          m_mode := "auto mode enabled 36m" } 5999).1
      = power 32 3 5999 23 :=
  ⟨by decide, by decide,
    (part2_public_value_auto 32
      { m_base := some 3, m_P := 23, m_a1 := 6, m_a2 := 15,
        m_mode := "auto mode enabled 36m" } 3 5999 0 (by decide) rfl (by decide)).2.2.1.trans
      (congrArg (fun e => power 32 3 e 23) (by decide))⟩

/-- C13: the range that `Part2_GetPublicValue` passes to `power_2_pub` is 6000
for the 36m mode, 8000 for the 64m mode, 11000 for the 121m mode, 16000 for the
256m mode, 20000 for the 400m mode and 8000 for every other mode string
different from `"manual"`; hence two sessions with the same `P`, the same base
and the same draw, one with an unknown mode and one with the 64m mode, store
the same `a2` and return the same Round 2 public value. -/
theorem mode_policy (w : Nat) (s t : TwoLayerDiffieHellman) (g rnd : Nat) :
    (s.m_mode ≠ "manual" → s.m_base = some g →
      Part2_GetPublicValue w s rnd = power_2_pub w s g (autoRange s.m_mode) rnd) ∧
    autoRange "auto mode enabled 36m" = 6000 ∧
    autoRange "auto mode enabled 64m" = 8000 ∧
    autoRange "auto mode enabled 121m" = 11000 ∧
    autoRange "auto mode enabled 256m" = 16000 ∧
    autoRange "auto mode enabled 400m" = 20000 ∧
    (s.m_mode ≠ "auto mode enabled 36m" → s.m_mode ≠ "auto mode enabled 64m" →
      s.m_mode ≠ "auto mode enabled 121m" → s.m_mode ≠ "auto mode enabled 256m" →
      s.m_mode ≠ "auto mode enabled 400m" → autoRange s.m_mode = 8000) ∧
    (s.m_mode ≠ "manual" → s.m_mode ≠ "auto mode enabled 36m" →
      s.m_mode ≠ "auto mode enabled 64m" → s.m_mode ≠ "auto mode enabled 121m" →
      s.m_mode ≠ "auto mode enabled 256m" → s.m_mode ≠ "auto mode enabled 400m" →
      t.m_mode = "auto mode enabled 64m" → s.m_P = t.m_P →
      s.m_base = some g → t.m_base = some g →
      (Part2_GetPublicValue w s rnd).1 = (Part2_GetPublicValue w t rnd).1 ∧
      (Part2_GetPublicValue w s rnd).2.m_a2 = (Part2_GetPublicValue w t rnd).2.m_a2) := by
  have hother : s.m_mode ≠ "auto mode enabled 36m" → s.m_mode ≠ "auto mode enabled 64m" →
      s.m_mode ≠ "auto mode enabled 121m" → s.m_mode ≠ "auto mode enabled 256m" →
      s.m_mode ≠ "auto mode enabled 400m" → autoRange s.m_mode = 8000 := by
    intro h1 h2 h3 h4 h5
    unfold autoRange
    rw [if_neg h1, if_neg h2, if_neg h3, if_neg h4, if_neg h5]
    rfl
  refine ⟨?_, by decide, by decide, by decide, by decide, by decide, hother, ?_⟩
  · intro hmode hbase
    unfold Part2_GetPublicValue
    rw [hbase]
    dsimp only
    rw [if_neg hmode]
  · intro hm h1 h2 h3 h4 h5 ht hP hsb htb
    have htm : t.m_mode ≠ "manual" := by rw [ht]; decide
    have hRt : autoRange t.m_mode = 8000 := by rw [ht]; decide
    rw [part2_public_auto w s g rnd hm hsb, part2_public_auto w t g rnd htm htb,
      hother h1 h2 h3 h4 h5, hRt, hP]
    exact ⟨rfl, rfl⟩

/-- The mode strings `"auto mode enabled 999m"` and `"auto mode enabled 64m"` on
sessions with modulus 23, base 3 and the draw 7000, which differ in `a1` and in
the `a2` they hold before the call: both store `a2 = 7002`, and they return the
same value. -/
theorem mode_policy_witness :
    autoRange "auto mode enabled 999m" = 8000 ∧
    (Part2_GetPublicValue 32
        { m_base := some 3, m_P := 23, m_a1 := 6, m_a2 := 15,
          m_mode := "auto mode enabled 999m" } 7000).2.m_a2 = 7002 ∧
    (Part2_GetPublicValue 32
        { m_base := some 3, m_P := 23, m_a1 := 6, m_a2 := 15,
          m_mode := "auto mode enabled 999m" } 7000).1
      = (Part2_GetPublicValue 32
        { m_base := some 3, m_P := 23, m_a1 := 9, m_a2 := 4,
          m_mode := "auto mode enabled 64m" } 7000).1 :=
  ⟨(mode_policy 32
      { m_base := some 3, m_P := 23, m_a1 := 6, m_a2 := 15,
        m_mode := "auto mode enabled 999m" }
      { m_base := some 3, m_P := 23, m_a1 := 9, m_a2 := 4,
        m_mode := "auto mode enabled 64m" } 3 7000).2.2.2.2.2.2.1
      (by decide) (by decide) (by decide) (by decide) (by decide),
    by decide,
    ((mode_policy 32
      { m_base := some 3, m_P := 23, m_a1 := 6, m_a2 := 15,
        m_mode := "auto mode enabled 999m" }
      { m_base := some 3, m_P := 23, m_a1 := 9, m_a2 := 4,
        m_mode := "auto mode enabled 64m" } 3 7000).2.2.2.2.2.2.2
      (by decide) (by decide) (by decide) (by decide) (by decide) (by decide)
      rfl rfl rfl rfl).1⟩

/-- C14: for every `P`, `a2` and mode, a session with `a1 = 1` returns exactly
`G = 2` from `Part1_GetPublicValue`, and the session is left as it was. -/
theorem part1_public_value_exponent_one (w : Nat) (s : TwoLayerDiffieHellman)
    (h1 : s.m_a1 = 1) :
    Part1_GetPublicValue w s = (Except.ok 2, s) := by
  unfold Part1_GetPublicValue m_G
  rw [h1, power_one]

/-- The scenario `P = 23, a1 = 1` of the specification, and the moduli 2 and 0,
under which `2 % P` would be 0 or undefined. -/
theorem part1_public_value_exponent_one_witness :
    (Part1_GetPublicValue 32 (construct 23 1 15 "manual")).1 = Except.ok 2 ∧
    (Part1_GetPublicValue 32 (construct 2 1 0 "auto mode enabled 36m")).1 = Except.ok 2 ∧
    (Part1_GetPublicValue 32 (construct 0 1 15 "manual")).1 = Except.ok 2 :=
  ⟨congrArg Prod.fst (part1_public_value_exponent_one 32 (construct 23 1 15 "manual") rfl),
    congrArg Prod.fst
      (part1_public_value_exponent_one 32 (construct 2 1 0 "auto mode enabled 36m") rfl),
    congrArg Prod.fst (part1_public_value_exponent_one 32 (construct 0 1 15 "manual") rfl)⟩

/-- C15 (as amended): `power` has no failure for an exponent that is too large.
For every base `a` and every exponent `b ≠ 1` that does not fit the `w`-bit
unsigned integer (`2 ^ w ≤ b`), `power` returns, for every `P ≥ 1`, the power of
`a` by the largest `w`-bit value `2 ^ w - 1`, reduced modulo `P`, which is also
what it returns for every other exponent that does not fit; for `P = 0` it
throws from the division, as it does for every exponent other than 1. -/
theorem power_clamps_exponent (w a b P : Nat) (hb : b ≠ 1) (hfit : 2 ^ w ≤ b) :
    (1 ≤ P → power w a b P = Except.ok (a ^ (2 ^ w - 1) % P)) ∧
    (1 ≤ P → ∀ c, c ≠ 1 → 2 ^ w ≤ c → power w a c P = power w a b P) ∧
    (P = 0 → power w a b P = Except.error Fault.divisionByZero) := by
  refine ⟨fun hP => power_of_not_fit hb hfit hP, ?_, ?_⟩
  · intro hP c hc hcfit
    rw [power_of_not_fit hb hfit hP, power_of_not_fit hc hcfit hP]
  · intro hP
    rw [hP]
    exact power_modulus_zero hb

/-- An 8-bit exponent type: the exponent 300 is read as 255, so base 3 under
modulus 7 gives `3 ^ 255 % 7 = 6`, the same as the exponent 256. -/
theorem power_clamps_exponent_witness :
    ((300 : Nat) ≠ 1 ∧ 2 ^ 8 ≤ 300) ∧
    power 8 3 300 7 = Except.ok 6 ∧
    power 8 3 256 7 = power 8 3 300 7 ∧
    power 8 3 300 0 = Except.error Fault.divisionByZero :=
  ⟨by decide,
    ((power_clamps_exponent 8 3 300 7 (by decide) (by decide)).1 (by decide)).trans
      (by decide),
    (power_clamps_exponent 8 3 300 7 (by decide) (by decide)).2.1 (by decide) 256
      (by decide) (by decide),
    (power_clamps_exponent 8 3 300 0 (by decide) (by decide)).2.2 rfl⟩

/-- C15 (counterexample): with a 32-bit exponent type the exponents `2 ^ 32`
and `2 ^ 32 + 5` do not fit, and `power` with base 2 and modulus 23 returns the
value 8 for both, which is `2 ^ (2 ^ 32 - 1) % 23`, instead of failing. -/
theorem power_too_large_returns :
    ((2 ^ 32 : Nat) ≠ 1 ∧ ¬ 2 ^ 32 < 2 ^ 32 ∧ ¬ 2 ^ 32 + 5 < 2 ^ 32) ∧
    power 32 2 (2 ^ 32) 23 = Except.ok 8 ∧
    power 32 2 (2 ^ 32 + 5) 23 = Except.ok 8 :=
  ⟨by decide,
    (power_of_not_fit (by decide) (le_refl _) (by decide)).trans
      (congrArg Except.ok two_pow_max32_mod_23),
    (power_of_not_fit (by decide) (Nat.le_add_right _ _) (by decide)).trans
      (congrArg Except.ok two_pow_max32_mod_23)⟩

/-- C16 (as amended): in manual mode `Part2_GetPublicValue` validates no
parameter.  With the base assigned it returns a value exactly when `P ≥ 1` or
`a2 = 1`, whatever `a1` is: the value is 0 for `P = 1` and `a2 ≠ 1`, and
`1 % P` for `a2 = 0` and `P ≥ 1`; for `P = 0` and `a2 ≠ 1` it throws from the
division by zero. -/
theorem part2_public_value_no_validation (w : Nat) (s : TwoLayerDiffieHellman)
    (g rnd a1 : Nat) (hmode : s.m_mode = "manual") (hbase : s.m_base = some g) :
    ((∃ v, (Part2_GetPublicValue w s rnd).1 = Except.ok v) ↔ (1 ≤ s.m_P ∨ s.m_a2 = 1)) ∧
    (Part2_GetPublicValue w { s with m_a1 := a1 } rnd).1 = (Part2_GetPublicValue w s rnd).1 ∧
    (s.m_P = 1 → s.m_a2 ≠ 1 → (Part2_GetPublicValue w s rnd).1 = Except.ok 0) ∧
    (1 ≤ s.m_P → s.m_a2 = 0 → (Part2_GetPublicValue w s rnd).1 = Except.ok (1 % s.m_P)) ∧
    (s.m_P = 0 → s.m_a2 ≠ 1 →
      (Part2_GetPublicValue w s rnd).1 = Except.error Fault.divisionByZero) := by
  have h : ∀ t : TwoLayerDiffieHellman, t.m_mode = "manual" → t.m_base = some g →
      (Part2_GetPublicValue w t rnd).1 = power w g t.m_a2 t.m_P := by
    intro t htm htb
    unfold Part2_GetPublicValue
    rw [htb]
    dsimp only
    rw [if_pos htm, powerUSI_eq_power]
  refine ⟨?_, ?_, ?_, ?_, ?_⟩
  · rw [h s hmode hbase]
    constructor
    · rintro ⟨v, hv⟩
      by_cases h1 : s.m_a2 = 1
      · exact Or.inr h1
      · left
        by_contra hP
        have hP0 : s.m_P = 0 := by omega
        rw [hP0, power_modulus_zero h1] at hv
        simp at hv
    · rintro (hP | h1)
      · by_cases h1 : s.m_a2 = 1
        · exact ⟨g, by rw [h1, power_one]⟩
        · exact ⟨_, power_of_ne_one h1 hP⟩
      · exact ⟨g, by rw [h1, power_one]⟩
  · rw [h s hmode hbase, h { s with m_a1 := a1 } hmode hbase]
  · intro hP h1
    rw [h s hmode hbase, power_of_ne_one h1 (by omega), hP, Nat.mod_one]
  · intro hP h0
    rw [h s hmode hbase, power_of_ne_one (by omega) hP, h0]
    have : toUint w 0 = 0 := by simp [toUint]
    rw [this, pow_zero]
  · intro hP h1
    rw [h s hmode hbase, hP, power_modulus_zero h1]

/-- Manual-mode sessions with base 2: `P = 1` gives 0, `a2 = 0` with `a1 = 0`
gives 1, and `P = 0` gives no value. -/
theorem part2_public_value_no_validation_witness :
    (Part2_GetPublicValue 32
      { m_base := some 2, m_P := 1, m_a1 := 6, m_a2 := 15, m_mode := "manual" } 0).1
      = Except.ok 0 ∧
    (Part2_GetPublicValue 32
      { m_base := some 2, m_P := 23, m_a1 := 0, m_a2 := 0, m_mode := "manual" } 0).1
      = Except.ok (1 % 23) ∧
    (Part2_GetPublicValue 32
      { m_base := some 2, m_P := 0, m_a1 := 6, m_a2 := 15, m_mode := "manual" } 0).1
      = Except.error Fault.divisionByZero :=
  ⟨(part2_public_value_no_validation 32
      { m_base := some 2, m_P := 1, m_a1 := 6, m_a2 := 15, m_mode := "manual" } 2 0 0
      rfl rfl).2.2.1 rfl (by decide),
    (part2_public_value_no_validation 32
      { m_base := some 2, m_P := 23, m_a1 := 0, m_a2 := 0, m_mode := "manual" } 2 0 0
      rfl rfl).2.2.2.1 (by decide) rfl,
    (part2_public_value_no_validation 32
      { m_base := some 2, m_P := 0, m_a1 := 6, m_a2 := 15, m_mode := "manual" } 2 0 0
      rfl rfl).2.2.2.2 rfl (by decide)⟩

/-- C16 (counterexample): manual-mode sessions whose base is 2 return a value
from `Part2_GetPublicValue` although a parameter is out of the stated bounds:
0 for `P = 1`, 1 for `a2 = 0`, and 9 for `a1 = 0`. -/
theorem part2_public_value_accepts_invalid :
    (Part2_GetPublicValue 32
      { m_base := some 2, m_P := 1, m_a1 := 6, m_a2 := 15, m_mode := "manual" } 0).1
      = Except.ok 0 ∧
    (Part2_GetPublicValue 32
      { m_base := some 2, m_P := 23, m_a1 := 6, m_a2 := 0, m_mode := "manual" } 0).1
      = Except.ok 1 ∧
    (Part2_GetPublicValue 32
      { m_base := some 2, m_P := 23, m_a1 := 0, m_a2 := 5, m_mode := "manual" } 0).1
      = Except.ok 9 := by
  decide

/-- C17: after any sequence of `Set`, `Part1_GetPublicValue`,
`Part1_GetSymmetricBaseNum`, `Part2_GetPublicValue` and
`Part2_GetSymmetricSecret` calls on a constructed session, `m_base` is
unassigned or is 2 or 3; and a call that changes `m_base` on any session is a
`Part1_GetSymmetricBaseNum` that succeeded. -/
theorem base_invariant (w P a1 a2 : Nat) (mode : String) (cs : List Call)
    (s : TwoLayerDiffieHellman) (c : Call) :
    ((run w (construct P a1 a2 mode) cs).2.m_base = none ∨
      (run w (construct P a1 a2 mode) cs).2.m_base = some 2 ∨
      (run w (construct P a1 a2 mode) cs).2.m_base = some 3) ∧
    ((call w s c).2.m_base ≠ s.m_base →
      ∃ x, c = Call.Part1_GetSymmetricBaseNum x ∧ (call w s c).1 = Except.ok none) := by
  refine ⟨run_base w cs (construct P a1 a2 mode) (Or.inl rfl), ?_⟩
  intro hne
  rcases call_base w s c with hsame | ⟨x, hc, hok, _⟩
  · exact absurd hsame hne
  · exact ⟨x, hc, hok⟩

/-- The session `(23, 6, 15, 36m mode)`: the base is unassigned after Round 1
emission, 3 after accepting the peer value 9, still 3 after `Set`, a Round 2
emission and a secret, and 2 after accepting the peer value 16. -/
theorem base_invariant_witness :
    (run 32 (construct 23 6 15 "auto mode enabled 36m")
      [Call.Part1_GetPublicValue]).2.m_base = none ∧
    (run 32 (construct 23 6 15 "auto mode enabled 36m")
      [Call.Part1_GetPublicValue, Call.Part1_GetSymmetricBaseNum 9, Call.Set 29 1 4 "manual",
        Call.Part2_GetPublicValue 7, Call.Part2_GetSymmetricSecret 5,
        Call.Part1_GetSymmetricBaseNum 2]).2.m_base = some 3 ∧
    (run 32 (construct 23 6 15 "auto mode enabled 36m")
      [Call.Part1_GetSymmetricBaseNum 9, Call.Part2_GetPublicValue 7,
        Call.Part1_GetSymmetricBaseNum 16]).2.m_base = some 2 ∧
    ((run 32 (construct 23 6 15 "manual") [Call.Part1_GetSymmetricBaseNum 9]).2.m_base = none ∨
      (run 32 (construct 23 6 15 "manual") [Call.Part1_GetSymmetricBaseNum 9]).2.m_base
        = some 2 ∨
      (run 32 (construct 23 6 15 "manual") [Call.Part1_GetSymmetricBaseNum 9]).2.m_base
        = some 3) :=
  ⟨by decide, by decide, by decide,
    (base_invariant 32 23 6 15 "manual" [Call.Part1_GetSymmetricBaseNum 9]
      (construct 23 6 15 "manual") Call.Part1_GetPublicValue).1⟩

/-- C18: two sessions with the same `a1`, whatever their `P`, `a2`, mode and
previous `m_base`, that accept the same peer value `x` get the same outcome from
`Part1_GetSymmetricBaseNum`: both succeed and hold the same base, 2 or 3,
afterwards, or both throw and stay as they were. -/
theorem derived_base_deterministic (w : Nat) (s t : TwoLayerDiffieHellman) (x : Nat)
    (h : s.m_a1 = t.m_a1) :
    (Part1_GetSymmetricBaseNum w s x).1 = (Part1_GetSymmetricBaseNum w t x).1 ∧
    ((Part1_GetSymmetricBaseNum w s x).1 = Except.ok () →
      (Part1_GetSymmetricBaseNum w s x).2.m_base = (Part1_GetSymmetricBaseNum w t x).2.m_base ∧
      ((Part1_GetSymmetricBaseNum w s x).2.m_base = some 2 ∨
        (Part1_GetSymmetricBaseNum w s x).2.m_base = some 3)) ∧
    (∀ e, (Part1_GetSymmetricBaseNum w s x).1 = Except.error e →
      (Part1_GetSymmetricBaseNum w s x).2 = s ∧ (Part1_GetSymmetricBaseNum w t x).2 = t) := by
  rcases accept_outcome w s.m_a1 x with ⟨g, hg, hall⟩ | hall
  · rw [hall s rfl, hall t h.symm]
    refine ⟨rfl, fun _ => ⟨rfl, ?_⟩, ?_⟩
    · rcases hg with hg | hg
      · exact Or.inl (by rw [hg])
      · exact Or.inr (by rw [hg])
    · intro e he
      simp at he
  · rw [hall s rfl, hall t h.symm]
    exact ⟨rfl, fun hok => by simp at hok, fun _ _ => ⟨rfl, rfl⟩⟩

/-- Sessions `(23, 6, 15, manual)` with no base and `(0, 6, 1, 400m mode)` with
base 2 accept the peer value 9 and both hold base 3; sessions with `a1 = 1`
both throw on the peer value 2. -/
theorem derived_base_deterministic_witness :
    (Part1_GetSymmetricBaseNum 32 (construct 23 6 15 "manual") 9).2.m_base = some 3 ∧
    (Part1_GetSymmetricBaseNum 32
      { m_base := some 2, m_P := 0, m_a1 := 6, m_a2 := 1,
        m_mode := "auto mode enabled 400m" } 9).2.m_base = some 3 ∧
    (Part1_GetSymmetricBaseNum 32 (construct 23 6 15 "manual") 9).1
      = (Part1_GetSymmetricBaseNum 32
        { m_base := some 2, m_P := 0, m_a1 := 6, m_a2 := 1,
          m_mode := "auto mode enabled 400m" } 9).1 ∧
    (Part1_GetSymmetricBaseNum 32 (construct 23 1 15 "manual") 2).1
      = (Part1_GetSymmetricBaseNum 32
        { m_base := some 2, m_P := 0, m_a1 := 1, m_a2 := 1,
          m_mode := "auto mode enabled 400m" } 2).1 :=
  ⟨by decide, by decide,
    (derived_base_deterministic 32 (construct 23 6 15 "manual")
      { m_base := some 2, m_P := 0, m_a1 := 6, m_a2 := 1,
        m_mode := "auto mode enabled 400m" } 9 rfl).1,
    (derived_base_deterministic 32 (construct 23 1 15 "manual")
      { m_base := some 2, m_P := 0, m_a1 := 1, m_a2 := 1,
        m_mode := "auto mode enabled 400m" } 2 rfl).1⟩

/-- C19 (as amended): the adjustment moves `a2` away from the bottom two
values of the range, not from the top two.  For every range `R ≥ 4` (every
range of an automatic mode is one) and every draw `r` in `[0, R)` the exponent
produced is `r + 2` when `r + 2 ≤ R` and `r` otherwise; it lies in `[2, R]`, so
it is never 0 or 1; and the draws `R - 4`, `R - 3`, `R - 2`, `R - 1` produce
`R - 2`, `R - 1`, `R`, `R - 1`. -/
theorem draw_adjustment (R r : Nat) (mode : String) (hR : 4 ≤ R) (hr : r < R) :
    4 ≤ autoRange mode ∧
    drawExponent R r = (if r + 2 ≤ R then r + 2 else r) ∧
    2 ≤ drawExponent R r ∧ drawExponent R r ≤ R ∧
    drawExponent R r ≠ 0 ∧ drawExponent R r ≠ 1 ∧
    drawExponent R (R - 4) = R - 2 ∧ drawExponent R (R - 3) = R - 1 ∧
    drawExponent R (R - 2) = R ∧ drawExponent R (R - 1) = R - 1 := by
  have hb := drawExponent_bounds (show 3 ≤ R by omega) r
  have hm : ∀ k, k < R → k % R = k := fun k hk => Nat.mod_eq_of_lt hk
  have hA := autoRange_ge mode
  refine ⟨by omega, ?_, hb.1, hb.2, by omega, by omega, ?_, ?_, ?_, ?_⟩
  · rw [drawExponent_eq, hm r hr]
  · rw [drawExponent_eq, hm (R - 4) (by omega)]
    split_ifs <;> omega
  · rw [drawExponent_eq, hm (R - 3) (by omega)]
    split_ifs <;> omega
  · rw [drawExponent_eq, hm (R - 2) (by omega)]
    split_ifs <;> omega
  · rw [drawExponent_eq, hm (R - 1) (by omega)]
    split_ifs <;> omega

/-- The range 6000 of the 36m mode with the draws 0 and 5999. -/
theorem draw_adjustment_witness :
    ((4 : Nat) ≤ 6000 ∧ (0 : Nat) < 6000 ∧ (5999 : Nat) < 6000) ∧
    drawExponent 6000 0 = 2 ∧ drawExponent 6000 5999 = 5999 ∧
    2 ≤ drawExponent m_range_36m 0 :=
  ⟨by decide,
    (draw_adjustment 6000 0 "auto mode enabled 36m" (by decide) (by decide)).2.1.trans
      (by decide),
    (draw_adjustment 6000 5999 "auto mode enabled 36m" (by decide) (by decide)).2.1.trans
      (by decide),
    (draw_adjustment m_range_36m 0 "auto mode enabled 36m" (by decide) (by decide)).2.2.1⟩

/-- C19 (counterexample): with the range `R = 6000` of the 36m mode the draw
`r = 5996` produces `a2 = 5998 = R - 2` and the draw `r = 5999` produces
`a2 = 5999 = R - 1`, the top two values of `[0, R)`; a session in that mode
holds them after `Part2_GetPublicValue`. -/
theorem draw_reaches_top_values :
    ((5996 : Nat) < m_range_36m ∧ (5999 : Nat) < m_range_36m) ∧
    drawExponent m_range_36m 5996 = m_range_36m - 2 ∧
    drawExponent m_range_36m 5999 = m_range_36m - 1 ∧
    (Part2_GetPublicValue 32
      { m_base := some 2, m_P := 23, m_a1 := 6, m_a2 := 15,
        m_mode := "auto mode enabled 36m" } 5996).2.m_a2 = 5998 ∧
    (Part2_GetPublicValue 32
      { m_base := some 2, m_P := 23, m_a1 := 6, m_a2 := 15,
        m_mode := "auto mode enabled 36m" } 5999).2.m_a2 = 5999 := by
  decide

/-- C20: for every modulus `P ≥ 1`, every common base `g` (2 and 3 among them)
and all Round 2 exponents (those that fit the exponent type among them, 0 and 1
included), side A and side B both emit a value, `X = powerUSI g a2_A P` and
`Y = powerUSI g a2_B P`, and `power Y a2_A P` and `power X a2_B P` both return
the same number.  The same holds for two sessions with modulus `P` and base `g`
in whatever modes: `Part2_GetSymmetricSecret` returns the same number on both
sides, each with the `a2` it holds after its own `Part2_GetPublicValue`. -/
theorem round2_agreement (w g a2A a2B P : Nat) (A1 B1 : TwoLayerDiffieHellman)
    (rndA rndB : Nat) (hP : 1 ≤ P) :
    (∃ X Y k, powerUSI w g a2A P = Except.ok X ∧ powerUSI w g a2B P = Except.ok Y ∧
      power w Y a2A P = Except.ok k ∧ power w X a2B P = Except.ok k) ∧
    (A1.m_P = P → B1.m_P = P → A1.m_base = some g → B1.m_base = some g →
      ∃ k, exchangeRound2 w A1 B1 rndA rndB = Except.ok (k, k)) := by
  refine ⟨power_agree w g a2A a2B P hP, ?_⟩
  intro hPA hPB hbA hbB
  obtain ⟨eA, hA⟩ := part2_public_any w A1 g rndA hbA
  obtain ⟨eB, hB⟩ := part2_public_any w B1 g rndB hbB
  rw [hPA] at hA
  rw [hPB] at hB
  obtain ⟨X, Y, k, hX, hY, hkA, hkB⟩ := power_agree w g eA eB P hP
  refine ⟨k, ?_⟩
  simp [exchangeRound2, hA, hB, Part2_GetSymmetricSecret, hX, hY, hkA, hkB, hPA, hPB]

/-- Base 3 under modulus 23 with the exponents 1 and 15, then 0 and 15, and a
manual-mode session with `a2 = 15` facing a session in the 36m mode with the
draw 5: both sides obtain the same secret. -/
theorem round2_agreement_witness :
    (powerUSI 32 3 1 23 = Except.ok 3 ∧ powerUSI 32 3 15 23 = Except.ok 12 ∧
      power 32 12 1 23 = Except.ok 12 ∧ power 32 3 15 23 = Except.ok 12) ∧
    (∃ X Y k, powerUSI 32 3 0 23 = Except.ok X ∧ powerUSI 32 3 15 23 = Except.ok Y ∧
      power 32 Y 0 23 = Except.ok k ∧ power 32 X 15 23 = Except.ok k) ∧
    (∃ k, exchangeRound2 32
      { m_base := some 3, m_P := 23, m_a1 := 6, m_a2 := 15, m_mode := "manual" }
      { m_base := some 3, m_P := 23, m_a1 := 9, m_a2 := 4,
        m_mode := "auto mode enabled 36m" } 0 5 = Except.ok (k, k)) :=
  ⟨by decide,
    (round2_agreement 32 3 0 15 23 (construct 23 6 15 "manual") (construct 23 6 15 "manual")
      0 0 (by decide)).1,
    (round2_agreement 32 3 0 15 23
      { m_base := some 3, m_P := 23, m_a1 := 6, m_a2 := 15, m_mode := "manual" }
      { m_base := some 3, m_P := 23, m_a1 := 9, m_a2 := 4,
        m_mode := "auto mode enabled 36m" } 0 5 (by decide)).2 rfl rfl rfl rfl⟩

end TwoLayerDiffieHellman

end Red
